import Mathlib

/-!
Verification of the read-alignment core (`aln.cpp`) of the strobealign
repository against its natural-language specification.

The development shallowly embeds the C++ source: strings become `List Char`,
C++ `int` becomes `Int` (overflow does not matter for the verified
properties), C++ `float`/`double` become `ℚ` (the arithmetic used by the
verified claims is exact on the values involved), and the external aligner
kernels (`aligner.align`, `hamming_align`) declared in §6 of the spec are
parameters of the embedding.  Truncating float-to-int conversion is `qtrunc`,
truncating C++ integer division is `cppDiv`.
-/

namespace Strobealign

/-- Substring extraction, `s.substr(pos, len)` on a `std::string`. -/
def substrN (s : List Char) (pos len : Nat) : List Char :=
  (s.drop pos).take len

/-- Truncating conversion of a C++ float value to `int` (rounds toward zero). -/
def qtrunc (q : ℚ) : Int :=
  if 0 ≤ q then ⌊q⌋ else -⌊-q⌋

/-- C++ integer division (truncates toward zero). -/
def cppDiv (a b : Int) : Int :=
  Int.tdiv a b

/-- A read: forward sequence and its reverse complement (data model §3). -/
structure Read where
  seq : List Char
  rc : List Char
deriving DecidableEq

/-- Length of a read (`Read::size()` returns the forward-sequence length). -/
def Read.size (r : Read) : Nat := r.seq.length

/-- A seed (NAM) as used by `aln.cpp` (data model §3). -/
structure Nam where
  nam_id : Int := 0
  ref_id : Nat := 0
  ref_start : Int := 0
  ref_end : Int := 0
  query_start : Int := 0
  query_end : Int := 0
  n_hits : Int := 0
  score : ℚ := 0
  is_rc : Bool := false
deriving DecidableEq

/-- Reference span of a NAM (`Nam::ref_span()`). -/
def Nam.ref_span (n : Nam) : Int := n.ref_end - n.ref_start

/-- Query span of a NAM (`Nam::query_span()`). -/
def Nam.query_span (n : Nam) : Int := n.query_end - n.query_start

/-- The reference store: per-contig sequences and lengths (spec §6). -/
structure References where
  sequences : List (List Char)
  lengths : List Nat
deriving DecidableEq

/-- Result record of the external aligner kernels (shape from spec §6). -/
structure AlnInfo where
  cigar : List (Nat × Char) := []
  edit_distance : Int := 0
  sw_score : Int := 0
  query_start : Int := 0
  query_end : Int := 0
  ref_start : Int := 0
  ref_end : Int := 0
deriving DecidableEq

/-- Reference span reported by the aligner kernel (`aln_info::ref_span()`). -/
def AlnInfo.ref_span (i : AlnInfo) : Int := i.ref_end - i.ref_start

/-- A full alignment (data model §3).  Default field values model a
default-constructed `Alignment`; no verified claim depends on them. -/
structure Alignment where
  cigar : List (Nat × Char) := []
  edit_distance : Int := 0
  global_ed : Int := 0
  score : Int := 0
  ref_start : Int := 0
  ref_id : Nat := 0
  length : Int := 0
  is_rc : Bool := false
  is_unaligned : Bool := false
  gapped : Bool := false
  mapq : Int := 0
deriving DecidableEq

/-- Alignment scoring parameters (data model §3). -/
structure AlignerParams where
  match_ : Int := 0
  mismatch : Int := 0
  gap_open : Int := 0
  gap_extend : Int := 0
  end_bonus : Int := 0
deriving DecidableEq

/-- The external aligner kernel entry points (spec §6): `align` performs
affine-gap alignment, `hamming_align` the gap-free end-bonus alignment.
Both are external collaborators of the core, hence parameters here. -/
structure AlignerKernel where
  align : List Char → List Char → AlnInfo
  hamming_align : List Char → List Char → Int → Int → Int → AlnInfo

/-- The aligner handed to the core: kernel plus scoring parameters. -/
structure Aligner where
  kernel : AlignerKernel
  params : AlignerParams

/-- Per-read observational counters (data model §3). -/
structure Details where
  nam_inconsistent : Nat := 0
  tried_alignment : Nat := 0
  gapped : Nat := 0
  mate_rescue : Nat := 0
deriving DecidableEq

/-- Modelled from the spec: `hamming_distance(a, b)` (§6) is an external
kernel helper absent from `src/`; it returns `-1` if the lengths differ and
the number of mismatching positions otherwise. -/
def hamming_distance (s t : List Char) : Int :=
  if s.length ≠ t.length then -1 else (mismatchCount s t : Int)
where
  /-- Number of positions at which the two lists differ. -/
  mismatchCount : List Char → List Char → Nat
    | x :: xs, y :: ys => (if x = y then 0 else 1) + mismatchCount xs ys
    | _, _ => 0

/-- First check of `reverse_nam_if_needed` (aln.cpp lines 39-52): the seed's
flanking k-mers, read off the strand selected by `is_rc`, match the reference
flanks. -/
def rnfCheck (nam : Nam) (read : Read) (references : References) (k : Nat) :
    Prop :=
  let refSeq := references.sequences.getD nam.ref_id []
  let seq := if nam.is_rc then read.rc else read.seq
  substrN refSeq nam.ref_start.toNat k = substrN seq nam.query_start.toNat k
  ∧ substrN refSeq (nam.ref_end - (k : Int)).toNat k
      = substrN seq (nam.query_end - (k : Int)).toNat k

instance (nam : Nam) (read : Read) (references : References) (k : Nat) :
    Decidable (rnfCheck nam read references k) := by
  unfold rnfCheck
  infer_instance

/-- Second check of `reverse_nam_if_needed` (aln.cpp lines 58-63): the flanks
match on the opposite strand at the mirrored query coordinates
`q_start_tmp = read_len - query_end`, `q_end_tmp = read_len - query_start`. -/
def rnfFlipCheck (nam : Nam) (read : Read) (references : References) (k : Nat) :
    Prop :=
  let refSeq := references.sequences.getD nam.ref_id []
  let seq_rc := if nam.is_rc then read.seq else read.rc
  substrN refSeq nam.ref_start.toNat k
    = substrN seq_rc ((read.size : Int) - nam.query_end).toNat k
  ∧ substrN refSeq (nam.ref_end - (k : Int)).toNat k
      = substrN seq_rc ((read.size : Int) - nam.query_start - (k : Int)).toNat k

instance (nam : Nam) (read : Read) (references : References) (k : Nat) :
    Decidable (rnfFlipCheck nam read references k) := by
  unfold rnfFlipCheck
  infer_instance

/-- In-place seed mutation performed on a flipped match (aln.cpp lines 64-66). -/
def rnfFlip (nam : Nam) (read : Read) : Nam :=
  { nam with is_rc := !nam.is_rc,
             query_start := (read.size : Int) - nam.query_end,
             query_end := (read.size : Int) - nam.query_start }

/-- Orientation verifier `reverse_nam_if_needed` (aln.cpp lines 37-70):
check the seed's flanking k-mers against the reference; on a consistent
flipped match, mutate `is_rc`, `query_start`, `query_end`; return whether
the seed was consistent in either orientation, with the updated seed. -/
def reverse_nam_if_needed (nam : Nam) (read : Read) (references : References)
    (k : Nat) : Bool × Nam :=
  if rnfCheck nam read references k then
    (true, nam)
  else if rnfFlipCheck nam read references k then
    (true, rnfFlip nam read)
  else
    (false, nam)

/-- A small read used by concrete witnesses: ACGT is its own reverse
complement. -/
def readACGT : Read := ⟨['A', 'C', 'G', 'T'], ['A', 'C', 'G', 'T']⟩

/-- A single-contig reference store used by concrete witnesses. -/
def refsACGT : References := ⟨[['A', 'C', 'G', 'T']], [4]⟩

/-- A seed covering the whole ACGT read and contig. -/
def namACGT : Nam := { ref_end := 4, query_end := 4 }

/-- Proper-pair predicate on seeds, `is_proper_nam_pair` (aln.cpp 347-361).
Both `a` and `b` subtract `nam2.query_start`, exactly as in the source. -/
def is_proper_nam_pair (nam1 nam2 : Nam) (mu sigma : ℚ) : Prop :=
  if nam1.ref_id ≠ nam2.ref_id ∨ nam1.is_rc = nam2.is_rc then
    False
  else
    (nam2.is_rc = true
      ∧ max 0 (nam1.ref_start - nam2.query_start)
          ≤ max 0 (nam2.ref_start - nam2.query_start)
      ∧ ((max 0 (nam2.ref_start - nam2.query_start)
          - max 0 (nam1.ref_start - nam2.query_start) : Int) : ℚ)
          < mu + 10 * sigma)
    ∨ (nam1.is_rc = true
      ∧ max 0 (nam2.ref_start - nam2.query_start)
          ≤ max 0 (nam1.ref_start - nam2.query_start)
      ∧ ((max 0 (nam1.ref_start - nam2.query_start)
          - max 0 (nam2.ref_start - nam2.query_start) : Int) : ℚ)
          < mu + 10 * sigma)

instance (nam1 nam2 : Nam) (mu sigma : ℚ) :
    Decidable (is_proper_nam_pair nam1 nam2 mu sigma) := by
  unfold is_proper_nam_pair
  infer_instance

/-- Forward seed on contig 0 used in the C5 counterexample. -/
def c5Nam1 : Nam := { nam_id := 1, ref_start := 0, query_start := 0 }

/-- Reverse seed on contig 0 with a different `query_start`, used in the C5
counterexample. -/
def c5Nam2 : Nam :=
  { nam_id := 2, ref_start := 150, query_start := 60, is_rc := true }

/-- Single-end MAPQ `get_mapq` (aln.cpp 271-281), parameterized by `logf`,
the natural logarithm of the C math library (an external routine).  The
C++ function returns `uint8_t`, so the `std::min` result is reduced
mod 256. -/
def get_mapq (logf : ℚ → ℚ) (nams : List Nam) (n_max : Nam) : Int :=
  if nams.length ≤ 1 then 60
  else
    let s1 : ℚ := n_max.score
    let s2 : ℚ := (nams.getD 1 {}).score
    let min_matches : ℚ := min ((n_max.n_hits : ℚ) / 10) 1
    let uncapped_mapq : Int := qtrunc (40 * (1 - s2 / s1) * min_matches * logf s1)
    (min uncapped_mapq 60) % 256

/-- Joint MAPQ from two pair scores, `joint_mapq_from_alignment_scores`
(aln.cpp 283-300); both mates receive the same value. -/
def joint_mapq_from_alignment_scores (score1 score2 : ℚ) : Int × Int :=
  if score1 = score2 then
    (0, 0)
  else
    let diff : Int := qtrunc (score1 - score2)
    if 0 < score1 ∧ 0 < score2 then (min 60 diff, min 60 diff)
    else if 0 < score1 ∧ score2 ≤ 0 then (60, 60)
    else (1, 1)

/-- Insert-size estimator state (data model §3; initial values spec §4.8). -/
structure i_dist_est where
  sample_size : ℚ := 1
  mu : ℚ := 0
  sigma : ℚ := 0
  V : ℚ := 0
  SSE : ℚ := 0
deriving DecidableEq

/-- One observation update, `i_dist_est::update` (aln.cpp 1035-1057),
parameterized by the math library square root `sqrtf` (external float
routine).  Observations of 2000 or more are discarded. -/
def i_dist_est.update (sqrtf : ℚ → ℚ) (st : i_dist_est) (dist : Int) :
    i_dist_est :=
  if 2000 ≤ dist then st
  else
    let e : ℚ := (dist : ℚ) - st.mu
    let mu1 := st.mu + e / st.sample_size
    let SSE1 := st.SSE + e * ((dist : ℚ) - mu1)
    let V1 := if 1 < st.sample_size then SSE1 / (st.sample_size - 1) else SSE1
    { sample_size := st.sample_size + 1, mu := mu1, sigma := sqrtf V1,
      V := V1, SSE := SSE1 }

/-- Insertion step of a comparison sort by `key` descending. -/
def insertDesc {α : Type} (key : α → Int) (x : α) : List α → List α
  | [] => [x]
  | y :: ys => if key y < key x then x :: y :: ys else y :: insertDesc key x ys

/-- Comparison sort by `key` descending; models `std::sort` with a
greater-than comparator (the source sorts use exactly such comparators). -/
def sortDesc {α : Type} (key : α → Int) : List α → List α
  | [] => []
  | x :: xs => insertDesc key x (sortDesc key xs)

/-- Accumulator of the joint enumeration loop of
`get_best_scoring_nam_locations` (aln.cpp 374-393): the collected candidate
tuples, the two sets of already-paired seed ids (modelled as lists; only
membership matters), and the highest joint hit count seen. -/
structure JointAcc where
  scores : List (Int × Nam × Nam) := []
  added1 : List Int := []
  added2 : List Int := []
  hjss : Int := 0
deriving DecidableEq

/-- Inner loop over `nams2` for a fixed `n1` (aln.cpp 379-392); breaks as
soon as the joint hit count falls below half the best seen so far. -/
def jointInner (n1 : Nam) (mu sigma : ℚ) (acc : JointAcc) :
    List Nam → JointAcc
  | [] => acc
  | n2 :: rest =>
    if n1.n_hits + n2.n_hits < cppDiv acc.hjss 2 then
      acc
    else if is_proper_nam_pair n1 n2 mu sigma then
      jointInner n1 mu sigma
        { scores := acc.scores ++ [(n1.n_hits + n2.n_hits, n1, n2)],
          added1 := acc.added1.insert n1.nam_id,
          added2 := acc.added2.insert n2.nam_id,
          hjss := if acc.hjss < n1.n_hits + n2.n_hits
                  then n1.n_hits + n2.n_hits else acc.hjss }
        rest
    else
      jointInner n1 mu sigma acc rest

/-- Outer loop over `nams1` (aln.cpp 378-393). -/
def jointOuter (nams2 : List Nam) (mu sigma : ℚ) (acc : JointAcc) :
    List Nam → JointAcc
  | [] => acc
  | n1 :: rest =>
    jointOuter nams2 mu sigma (jointInner n1 mu sigma acc nams2) rest

/-- The dummy sentinel seed with `ref_start = -1` (aln.cpp 395-396); its
other fields are default-constructed. -/
def dummyNam : Nam := { ref_start := -1 }

/-- Individual-candidate loop over `nams1` (aln.cpp 397-412): break below
the half-threshold, skip already-paired seeds, else append
`(n_hits, n1, dummy)`. -/
def indivLoop1 (added : List Int) (thresh : Int) :
    List Nam → List (Int × Nam × Nam)
  | [] => []
  | n :: rest =>
    if n.n_hits < thresh then []
    else if n.nam_id ∈ added then indivLoop1 added thresh rest
    else (n.n_hits, n, dummyNam) :: indivLoop1 added thresh rest

/-- Individual-candidate loop over `nams2` (aln.cpp 414-431), symmetric to
`indivLoop1` with the dummy in the first mate position. -/
def indivLoop2 (added : List Int) (thresh : Int) :
    List Nam → List (Int × Nam × Nam)
  | [] => []
  | n :: rest =>
    if n.n_hits < thresh then []
    else if n.nam_id ∈ added then indivLoop2 added thresh rest
    else (n.n_hits, dummyNam, n) :: indivLoop2 added thresh rest

/-- Joint candidate enumeration `get_best_scoring_nam_locations`
(aln.cpp 363-445). -/
def get_best_scoring_nam_locations (nams1 nams2 : List Nam) (mu sigma : ℚ) :
    List (Int × Nam × Nam) :=
  if nams1 = [] ∧ nams2 = [] then
    []
  else
    let jp := jointOuter nams2 mu sigma {} nams1
    let indiv1 :=
      if nams1 = [] then []
      else
        let hjss1 := if 0 < jp.hjss then jp.hjss
                     else (nams1.headD dummyNam).n_hits
        indivLoop1 jp.added1 (cppDiv hjss1 2) nams1
    let indiv2 :=
      if nams2 = [] then []
      else
        let hjss2 := if 0 < jp.hjss then jp.hjss
                     else (nams2.headD dummyNam).n_hits
        indivLoop2 jp.added2 (cppDiv hjss2 2) nams2
    sortDesc (fun t => t.1) (jp.scores ++ indiv1 ++ indiv2)

/-- The individual candidates from one read, as the amended claim C4
describes them: the maximal prefix of the list all of whose members reach
half of `h1`, minus the seeds already captured in a proper pair, tupled with
the dummy in the second position. -/
def indivSpec1 (nams : List Nam) (added : List Int) (h1 : Int) :
    List (Int × Nam × Nam) :=
  ((nams.takeWhile fun n => decide (cppDiv h1 2 ≤ n.n_hits)).filter
      fun n => decide (n.nam_id ∉ added)).map
    fun n => (n.n_hits, n, dummyNam)

/-- Symmetric version of `indivSpec1` for the second read. -/
def indivSpec2 (nams : List Nam) (added : List Int) (h2 : Int) :
    List (Int × Nam × Nam) :=
  ((nams.takeWhile fun n => decide (cppDiv h2 2 ≤ n.n_hits)).filter
      fun n => decide (n.nam_id ∉ added)).map
    fun n => (n.n_hits, dummyNam, n)

/-- Strong seed on contig 1, not pairable, used in the C4 counterexample. -/
def c4NamA : Nam := { nam_id := 1, ref_id := 1, n_hits := 100, score := 100 }

/-- Medium seed on contig 1, not pairable, used in the C4 counterexample. -/
def c4NamD : Nam := { nam_id := 4, ref_id := 1, n_hits := 10, score := 60 }

/-- Weak forward seed on contig 0 that forms a proper pair with `c4NamC`. -/
def c4NamB : Nam :=
  { nam_id := 2, ref_id := 0, ref_start := 100, ref_end := 150,
    query_end := 50, n_hits := 3, score := 50 }

/-- Reverse seed on contig 0 that forms a proper pair with `c4NamB`. -/
def c4NamC : Nam :=
  { nam_id := 3, ref_id := 0, ref_start := 300, n_hits := 2, score := 40,
    is_rc := true }

/-- Common construction of the Alignment record in `get_alignment`
(aln.cpp 255-268): note that `is_unaligned` is set to `false`
unconditionally. -/
def extendAlignment (info : AlnInfo) (result_ref_start : Int) (nam : Nam)
    (gapped : Bool) (query : List Char) : Alignment :=
  { cigar := info.cigar,
    edit_distance := info.edit_distance,
    global_ed := info.edit_distance
      + (info.query_start + ((query.length : Int) - info.query_end)),
    score := info.sw_score,
    ref_start := result_ref_start,
    length := info.ref_span,
    is_rc := nam.is_rc,
    is_unaligned := false,
    ref_id := nam.ref_id,
    gapped := gapped,
    mapq := 0 }

/-- Extender `get_alignment` (aln.cpp 219-269): project the seed onto the
reference; if the projected window has exactly the query length, the seed is
consistent and the Hamming rate is below 5 percent (the `1/20` below), take
the ungapped fast path via `hamming_align`; otherwise pad the window and run
the gapped kernel. -/
def get_alignment (aligner : Aligner) (nam : Nam) (references : References)
    (read : Read) (consistent_nam : Bool) : Alignment :=
  let query := if nam.is_rc then read.rc else read.seq
  let ref := references.sequences.getD nam.ref_id []
  let projected_ref_start : Int := max 0 (nam.ref_start - nam.query_start)
  let projected_ref_end : Int :=
    min (nam.ref_end + (query.length : Int) - nam.query_end)
      (ref.length : Int)
  let hamInfo : Option AlnInfo :=
    if projected_ref_end - projected_ref_start = (query.length : Int)
        ∧ consistent_nam = true then
      let ref_segm_ham := substrN ref projected_ref_start.toNat query.length
      let hd := hamming_distance query ref_segm_ham
      if 0 ≤ hd ∧ ((hd : ℚ) / (query.length : ℚ)) < 1 / 20 then
        some (aligner.kernel.hamming_align query ref_segm_ham
          aligner.params.match_ aligner.params.mismatch
          aligner.params.end_bonus)
      else none
    else none
  match hamInfo with
  | some info =>
    extendAlignment info (projected_ref_start + info.ref_start) nam false query
  | none =>
    let diff := |nam.ref_span - nam.query_span|
    let ext_left := min 50 projected_ref_start
    let ref_start := projected_ref_start - ext_left
    let ext_right := min 50 ((ref.length : Int) - nam.ref_end)
    let ref_segm_size := (read.size : Int) + diff + ext_left + ext_right
    let ref_segm := substrN ref ref_start.toNat ref_segm_size.toNat
    let info := aligner.kernel.align query ref_segm
    extendAlignment info (ref_start + info.ref_start) nam true query

/-- One submer test plus stepping of the `has_shared_substring` loop
(aln.cpp 455-460): advance `i` by `step_size` while
`i + sub_size < |read_seq|`.  `fuel` bounds the recursion; the loop performs
at most `|read_seq| + 1` iterations whenever `step_size ≥ 1` (i.e. `k ≥ 3`;
for smaller `k` the C++ loop would not terminate). -/
def hssLoop (read_seq ref_seq : List Char) (sub_size step_size : Nat) :
    Nat → Nat → Bool
  | _, 0 => false
  | i, fuel + 1 =>
    if i + sub_size < read_seq.length then
      if (substrN read_seq i sub_size) <:+: ref_seq then true
      else hssLoop read_seq ref_seq sub_size step_size (i + step_size) fuel
    else false

/-- Substring gate `has_shared_substring` (aln.cpp 451-462): does some
length-`2k/3` substring of the read, sampled at stride `k/3`, occur in the
reference segment? -/
def has_shared_substring (read_seq ref_seq : List Char) (k : Nat) : Bool :=
  hssLoop read_seq ref_seq (2 * k / 3) (k / 3) 0 (read_seq.length + 1)

/-- The substring gate as claim C6 words it: some length-`⌊2k/3⌋` substring
of the mate sequence sampled at stride `⌊k/3⌋` occurs in the window (at a
sampling offset `j` such that the loop would visit it). -/
def sharedSubstringSpec (mate window : List Char) (k : Nat) : Prop :=
  ∃ j : Nat, j * (k / 3) + 2 * k / 3 < mate.length
    ∧ (substrN mate (j * (k / 3)) (2 * k / 3)) <:+: window

instance (mate window : List Char) (k : Nat) :
    Decidable (sharedSubstringSpec mate window k) := by
  refine decidable_of_iff
    (∃ j : Nat, j ≤ mate.length ∧ (j * (k / 3) + 2 * k / 3 < mate.length
      ∧ (substrN mate (j * (k / 3)) (2 * k / 3)) <:+: window)) ?_
  constructor
  · rintro ⟨j, _, hj⟩
    exact ⟨j, hj⟩
  · rintro ⟨j, hj1, hj2⟩
    by_cases hs : k / 3 = 0
    · refine ⟨0, Nat.zero_le _, ?_, ?_⟩
      · simpa [hs] using hj1
      · simpa [hs] using hj2
    · have h1 : 1 ≤ k / 3 := Nat.one_le_iff_ne_zero.mpr hs
      have hjle : j ≤ j * (k / 3) := Nat.le_mul_of_pos_right j h1
      exact ⟨j, le_of_lt (by omega), hj1, hj2⟩

/-- Orientation-corrected guide seed used by `rescue_mate` (aln.cpp 481). -/
def rescueNam (nam : Nam) (guide : Read) (references : References) (k : Nat) :
    Nam :=
  (reverse_nam_if_needed nam guide references k).2

/-- Mate sequence chosen by `rescue_mate` (aln.cpp 482-492): the forward
mate sequence when the guide is reverse-strand, else its reverse
complement. -/
def rescueQuery (nam1 : Nam) (read : Read) : List Char :=
  if nam1.is_rc then read.seq else read.rc

/-- Lower candidate coordinate `a` of the rescue window (aln.cpp 484, 489);
the float mean-plus-5-sigma term is truncated on assignment to `int`. -/
def rescueA (nam1 : Nam) (read : Read) (mu sigma : ℚ) : Int :=
  if nam1.is_rc then
    qtrunc (((nam1.ref_start - nam1.query_start : Int) : ℚ) - (mu + 5 * sigma))
  else
    nam1.ref_end + ((read.size : Int) - nam1.query_end)
      - ((read.size / 2 : Nat) : Int)

/-- Upper candidate coordinate `b` of the rescue window (aln.cpp 485, 490). -/
def rescueB (nam1 : Nam) (read : Read) (mu sigma : ℚ) : Int :=
  if nam1.is_rc then
    nam1.ref_start - nam1.query_start + ((read.size / 2 : Nat) : Int)
  else
    qtrunc (((nam1.ref_end + ((read.size : Int) - nam1.query_end) : Int) : ℚ)
      + (mu + 5 * sigma))

/-- Clamped rescue window start (aln.cpp 495). -/
def rescueRefStart (nam1 : Nam) (read : Read) (references : References)
    (mu sigma : ℚ) : Int :=
  max 0 (min (rescueA nam1 read mu sigma)
    ((references.lengths.getD nam1.ref_id 0 : Int)))

/-- Clamped rescue window end (aln.cpp 496). -/
def rescueRefEnd (nam1 : Nam) (read : Read) (references : References)
    (mu sigma : ℚ) : Int :=
  min ((references.lengths.getD nam1.ref_id 0 : Int))
    (max 0 (rescueB nam1 read mu sigma))

/-- Reference segment of the rescue window (aln.cpp 509). -/
def rescueSegm (nam1 : Nam) (read : Read) (references : References)
    (mu sigma : ℚ) : List Char :=
  substrN (references.sequences.getD nam1.ref_id [])
    (rescueRefStart nam1 read references mu sigma).toNat
    (rescueRefEnd nam1 read references mu sigma
      - rescueRefStart nam1 read references mu sigma).toNat

/-- The unaligned sentinel written by `rescue_mate` when the window is too
short or fails the substring gate (aln.cpp 498-522): `score = 0`,
`edit_distance = read_len`, `is_unaligned = true`; the remaining fields of
the caller's default-constructed Alignment are untouched. -/
def rescueSentinel (nam1 : Nam) (read_len : Int) : Alignment :=
  { cigar := [], edit_distance := read_len, score := 0, ref_start := 0,
    is_rc := nam1.is_rc, ref_id := nam1.ref_id, is_unaligned := true }

/-- Mate rescuer `rescue_mate` (aln.cpp 465-550): returns whether alignment
was actually attempted, together with the produced Alignment. -/
def rescue_mate (aligner : Aligner) (nam : Nam) (references : References)
    (guide read : Read) (mu sigma : ℚ) (k : Nat) : Bool × Alignment :=
  let nam1 := rescueNam nam guide references k
  if rescueRefEnd nam1 read references mu sigma
      < rescueRefStart nam1 read references mu sigma + (k : Int) then
    (false, rescueSentinel nam1 read.size)
  else if has_shared_substring (rescueQuery nam1 read)
      (rescueSegm nam1 read references mu sigma) k = false then
    (false, rescueSentinel nam1 read.size)
  else
    let info := aligner.kernel.align (rescueQuery nam1 read)
      (rescueSegm nam1 read references mu sigma)
    (true,
      { cigar := info.cigar, edit_distance := info.edit_distance,
        score := info.sw_score,
        ref_start := rescueRefStart nam1 read references mu sigma
          + info.ref_start,
        is_rc := !nam1.is_rc, ref_id := nam1.ref_id,
        is_unaligned := info.cigar.isEmpty, length := info.ref_span })

/-- An aligner whose kernels always report a default (empty-CIGAR) result
record; used by concrete witnesses and counterexamples. -/
def emptyAligner : Aligner :=
  { kernel :=
      { align := fun _ _ => ({} : AlnInfo),
        hamming_align := fun _ _ _ _ _ => ({} : AlnInfo) },
    params := {} }

/-- One emitted record, as handed to the SAM writer. -/
inductive SamRecord
  | unmapped
  | mapped (a : Alignment) (is_primary : Bool)
deriving DecidableEq

/-- State of the single-end seed-extension loop (aln.cpp 91-128). -/
structure SEState where
  tries : Int
  best_edit_distance : Int
  best_score : Int
  best_alignment : Alignment
  min_mapq_diff : Int
  alignments : List Alignment
  details : Details
deriving DecidableEq

/-- Initial loop state (aln.cpp 91-100): `best_edit_distance` and
`min_mapq_diff` start at `INT_MAX = 2147483647`, `best_score` at -1000, and
the placeholder best alignment carries score -100000 and
`is_unaligned = true`. -/
def seInit : SEState :=
  { tries := 0, best_edit_distance := 2147483647, best_score := -1000,
    best_alignment := { score := -100000, is_unaligned := true },
    min_mapq_diff := 2147483647, alignments := [], details := {} }

/-- The seed loop of `align_SE` (aln.cpp 102-128): stop on `max_tries`, on a
perfect tracked best (`best_edit_distance == 0`, only ever set when
`max_secondary == 0`), or on seed dropoff; otherwise verify orientation,
extend, collect (when secondaries are requested), and track the best. -/
def seLoop (aligner : Aligner) (read : Read) (k : Nat)
    (references : References) (dropoff_threshold : ℚ) (max_tries : Int)
    (max_secondary : Nat) (top_hits : Int) :
    List Nam → SEState → SEState
  | [], st => st
  | nam :: rest, st =>
    if max_tries ≤ st.tries
        ∨ (1 < st.tries ∧ st.best_edit_distance = 0)
        ∨ ((nam.n_hits : ℚ) / (top_hits : ℚ) < dropoff_threshold) then
      st
    else
      let rv := reverse_nam_if_needed nam read references k
      let alignment := get_alignment aligner rv.2 references read rv.1
      let details1 : Details :=
        { nam_inconsistent := st.details.nam_inconsistent
            + (if rv.1 then 0 else 1),
          tried_alignment := st.details.tried_alignment + 1,
          gapped := st.details.gapped + (if alignment.gapped then 1 else 0),
          mate_rescue := st.details.mate_rescue }
      let alignments1 :=
        if 0 < max_secondary then st.alignments ++ [alignment]
        else st.alignments
      let st1 : SEState :=
        if st.best_score < alignment.score then
          { tries := st.tries + 1,
            best_edit_distance :=
              if max_secondary = 0 then alignment.global_ed
              else st.best_edit_distance,
            best_score := alignment.score,
            best_alignment := alignment,
            min_mapq_diff := max 0 (alignment.score - st.best_score),
            alignments := alignments1,
            details := details1 }
        else
          { tries := st.tries + 1,
            best_edit_distance := st.best_edit_distance,
            best_score := st.best_score,
            best_alignment := st.best_alignment,
            min_mapq_diff := min st.min_mapq_diff
              |st.best_score - alignment.score|,
            alignments := alignments1,
            details := details1 }
      seLoop aligner read k references dropoff_threshold max_tries
        max_secondary top_hits rest st1

/-- Emission loop over the sorted alignments (aln.cpp 142-154): stop as soon
as `alignment.score - best_score` exceeds the secondary dropoff (the exact
comparison direction of the source); the record at index 0 is primary with
`mapq = min(min_mapq_diff, 60)`, the others get `mapq = 255`. -/
def seEmit (best_score secondary_dropoff min_mapq_diff : Int) :
    Nat → List Alignment → List SamRecord
  | _, [] => []
  | i, a :: rest =>
    if secondary_dropoff < a.score - best_score then []
    else
      SamRecord.mapped
          { a with mapq := if i = 0 then min min_mapq_diff 60 else 255 }
          (i == 0)
        :: seEmit best_score secondary_dropoff min_mapq_diff (i + 1) rest

/-- Single-end driver `align_SE` (aln.cpp 72-155): returns the emitted
records together with the accumulated details. -/
def align_SE (aligner : Aligner) (nams : List Nam) (read : Read) (k : Nat)
    (references : References) (dropoff_threshold : ℚ) (max_tries : Int)
    (max_secondary : Nat) : List SamRecord × Details :=
  match nams with
  | [] => ([SamRecord.unmapped], {})
  | n_max :: _ =>
    let st := seLoop aligner read k references dropoff_threshold max_tries
      max_secondary n_max.n_hits nams seInit
    if max_secondary = 0 then
      ([SamRecord.mapped
          { st.best_alignment with mapq := min st.min_mapq_diff 60 } true],
        st.details)
    else
      let sorted := sortDesc (fun a : Alignment => a.score) st.alignments
      let max_out := min sorted.length (max_secondary + 1)
      (seEmit st.best_score
        (2 * aligner.params.mismatch + aligner.params.gap_open)
        st.min_mapq_diff 0 (sorted.take max_out), st.details)

/-- The single-end stop rule in the claim C2 wording, counting attempted
alignments: before each seed, stop when `tries ≥ max_tries`, when the
edit-distance exit is active and `tries > 1` and the tracked best alignment
has `global_ed = 0`, or when the seed's dropoff is below the threshold.
`use_ed_stop = true` renders the claim exactly (the exit fires regardless of
`max_secondary`); the amended claim instantiates it with
`max_secondary == 0`.  `step` is the per-seed verify-and-extend computation;
the best is tracked as the loop tracks it (updated when a score exceeds the
previous best, starting from -1000 and `INT_MAX`). -/
def specTriedSE (use_ed_stop : Bool) (step : Nam → Alignment)
    (dropoff_threshold : ℚ) (max_tries : Int) (top_hits : Int) :
    List Nam → Int → Int → Int → Nat
  | [], _, _, _ => 0
  | nam :: rest, tries, best_score, best_ged =>
    if max_tries ≤ tries ∨ (use_ed_stop = true ∧ 1 < tries ∧ best_ged = 0)
        ∨ ((nam.n_hits : ℚ) / (top_hits : ℚ) < dropoff_threshold) then
      0
    else
      let a := step nam
      if best_score < a.score then
        1 + specTriedSE use_ed_stop step dropoff_threshold max_tries top_hits
          rest (tries + 1) a.score a.global_ed
      else
        1 + specTriedSE use_ed_stop step dropoff_threshold max_tries top_hits
          rest (tries + 1) best_score best_ged

/-- An aligner whose kernels report a perfect full-length match: zero edit
distance, no soft clipping, score equal to the query length. -/
def c2Aligner : Aligner :=
  { kernel :=
      { align := fun q r =>
          { cigar := [(q.length, 'M')], edit_distance := 0,
            sw_score := (q.length : Int), query_start := 0,
            query_end := (q.length : Int), ref_start := 0,
            ref_end := (r.length : Int) },
        hamming_align := fun q _ _ _ _ =>
          { cigar := [(q.length, 'M')], edit_distance := 0,
            sw_score := (q.length : Int), query_start := 0,
            query_end := (q.length : Int), ref_start := 0,
            ref_end := (q.length : Int) } },
    params := { mismatch := 4, gap_open := 6 } }

/-- A seed over the whole ACGT read, distinguished by id. -/
def c2Nam (i : Int) : Nam :=
  { nam_id := i, ref_end := 4, query_end := 4, n_hits := 1 }

/-- An aligner whose gapped kernel scores 100 against an all-A reference
window and 0 otherwise, with penalties `mismatch = 4`, `gap_open = 6`. -/
def c1Aligner : Aligner :=
  { kernel :=
      { align := fun _ r =>
          { cigar := [(1, 'M')], edit_distance := 0,
            sw_score := if r.headD 'X' = 'A' then 100 else 0,
            query_start := 0, query_end := 0, ref_start := 0, ref_end := 1 },
        hamming_align := fun _ _ _ _ _ => ({} : AlnInfo) },
    params := { mismatch := 4, gap_open := 6 } }

/-- A two-contig reference store: one all-A contig, one all-C contig. -/
def c1Refs : References :=
  ⟨[List.replicate 8 'A', List.replicate 8 'C'], [8, 8]⟩

/-- Seed on the all-A contig (alignment score 100). -/
def c1Nam1 : Nam :=
  { nam_id := 1, ref_id := 0, ref_start := 2, ref_end := 6, query_end := 4,
    n_hits := 5, score := 10 }

/-- Seed on the all-C contig (alignment score 0). -/
def c1Nam2 : Nam :=
  { nam_id := 2, ref_id := 1, ref_start := 2, ref_end := 6, query_end := 4,
    n_hits := 5, score := 9 }

/-- Applying the first flank check to a flipped seed is the same as applying
the flipped check to the original seed. -/
theorem rnfCheck_flip (nam : Nam) (read : Read) (references : References)
    (k : Nat) :
    rnfCheck (rnfFlip nam read) read references k
      ↔ rnfFlipCheck nam read references k := by
  cases h : nam.is_rc <;>
    simp [rnfCheck, rnfFlipCheck, rnfFlip, h, sub_sub]

/-- Claim C9: `reverse_nam_if_needed` is idempotent: for every seed (with
query and reference spans in bounds and of length at least `k`), applying the
verifier a second time to the updated seed returns the same boolean as the
first call and leaves `is_rc`, `query_start` and `query_end` unchanged. -/
theorem reverse_nam_if_needed_idempotent (nam : Nam) (read : Read)
    (references : References) (k : Nat)
    (href : nam.ref_id < references.sequences.length)
    (hrs : 0 ≤ nam.ref_start)
    (hrspan : nam.ref_start + (k : Int) ≤ nam.ref_end)
    (hre : nam.ref_end ≤ ((references.sequences.getD nam.ref_id []).length : Int))
    (hqs : 0 ≤ nam.query_start)
    (hqspan : nam.query_start + (k : Int) ≤ nam.query_end)
    (hqe : nam.query_end ≤ (read.seq.length : Int))
    (hrc : read.rc.length = read.seq.length) :
    (reverse_nam_if_needed (reverse_nam_if_needed nam read references k).2
        read references k).1
      = (reverse_nam_if_needed nam read references k).1
    ∧ (reverse_nam_if_needed (reverse_nam_if_needed nam read references k).2
        read references k).2.is_rc
      = (reverse_nam_if_needed nam read references k).2.is_rc
    ∧ (reverse_nam_if_needed (reverse_nam_if_needed nam read references k).2
        read references k).2.query_start
      = (reverse_nam_if_needed nam read references k).2.query_start
    ∧ (reverse_nam_if_needed (reverse_nam_if_needed nam read references k).2
        read references k).2.query_end
      = (reverse_nam_if_needed nam read references k).2.query_end := by
  by_cases h1 : rnfCheck nam read references k
  · simp [reverse_nam_if_needed, h1]
  · by_cases h2 : rnfFlipCheck nam read references k
    · have hkey : rnfCheck (rnfFlip nam read) read references k :=
        (rnfCheck_flip nam read references k).mpr h2
      simp [reverse_nam_if_needed, h1, h2, hkey]
    · simp [reverse_nam_if_needed, h1, h2]

/-- Witness for claim C9: the idempotence theorem applied at a concrete
in-bounds seed. -/
theorem reverse_nam_if_needed_idempotent_witness :
    (0 : Int) ≤ namACGT.ref_start
    ∧ ((reverse_nam_if_needed
          (reverse_nam_if_needed namACGT readACGT refsACGT 2).2
          readACGT refsACGT 2).1
        = (reverse_nam_if_needed namACGT readACGT refsACGT 2).1
      ∧ (reverse_nam_if_needed
          (reverse_nam_if_needed namACGT readACGT refsACGT 2).2
          readACGT refsACGT 2).2.is_rc
        = (reverse_nam_if_needed namACGT readACGT refsACGT 2).2.is_rc
      ∧ (reverse_nam_if_needed
          (reverse_nam_if_needed namACGT readACGT refsACGT 2).2
          readACGT refsACGT 2).2.query_start
        = (reverse_nam_if_needed namACGT readACGT refsACGT 2).2.query_start
      ∧ (reverse_nam_if_needed
          (reverse_nam_if_needed namACGT readACGT refsACGT 2).2
          readACGT refsACGT 2).2.query_end
        = (reverse_nam_if_needed namACGT readACGT refsACGT 2).2.query_end) :=
  ⟨by decide,
   reverse_nam_if_needed_idempotent namACGT readACGT refsACGT 2
     (by decide) (by decide) (by decide) (by decide) (by decide) (by decide)
     (by decide) (by decide)⟩

/-- Claim C5 counterexample: with `mu = 100`, `sigma = 0`, the pair
(c5Nam1, c5Nam2) is accepted in one order and rejected in the other, because
both `a` and `b` are computed from `nam2.query_start`. -/
theorem is_proper_nam_pair_not_symmetric :
    is_proper_nam_pair c5Nam1 c5Nam2 100 0
    ∧ ¬ is_proper_nam_pair c5Nam2 c5Nam1 100 0 := by
  constructor
  · norm_num [is_proper_nam_pair, c5Nam1, c5Nam2]
  · norm_num [is_proper_nam_pair, c5Nam1, c5Nam2]

/-- Claim C5 (amended): for all `mu ≥ 0`, `sigma ≥ 0`, the proper-pair
predicate is symmetric whenever the two seeds have the same `query_start`
(the source computes both window endpoints from `nam2.query_start`, so
symmetry fails in general but holds under this extra condition). -/
theorem is_proper_nam_pair_symm (n1 n2 : Nam) (mu sigma : ℚ)
    (hmu : 0 ≤ mu) (hsigma : 0 ≤ sigma)
    (hq : n1.query_start = n2.query_start) :
    (is_proper_nam_pair n1 n2 mu sigma ↔ is_proper_nam_pair n2 n1 mu sigma) := by
  unfold is_proper_nam_pair
  by_cases hg : n1.ref_id = n2.ref_id
  · by_cases hb : n1.is_rc = n2.is_rc
    · simp [hg, hb.symm]
    · have hb' : ¬ n2.is_rc = n1.is_rc := fun h => hb h.symm
      rw [if_neg (by simp [hg, hb]), if_neg (by simp [hg.symm, hb'])]
      rw [hq]
      exact or_comm
  · have hg' : ¬ n2.ref_id = n1.ref_id := fun h => hg h.symm
    simp [hg, hg']

/-- Witness for claim C5 (amended) at concrete seeds with equal
`query_start`. -/
theorem is_proper_nam_pair_symm_witness :
    (0 : ℚ) ≤ 200
    ∧ (is_proper_nam_pair c5Nam1
          { nam_id := 3, ref_start := 100, query_start := 0, is_rc := true }
          200 0
        ↔ is_proper_nam_pair
            { nam_id := 3, ref_start := 100, query_start := 0, is_rc := true }
            c5Nam1 200 0) :=
  ⟨by norm_num,
   is_proper_nam_pair_symm c5Nam1
     { nam_id := 3, ref_start := 100, query_start := 0, is_rc := true }
     200 0 (by norm_num) (by norm_num) rfl⟩

/-- Claim C7 counterexample: `joint_mapq_from_alignment_scores(1, 5)` returns
`(-4, -4)`, which lies outside `[0, 60]` (the function is only in range when
`score1 ≥ score2`, which the claim does not require). -/
theorem joint_mapq_out_of_range :
    joint_mapq_from_alignment_scores 1 5 = (-4, -4) ∧ ¬ (0 : Int) ≤ -4 := by
  constructor
  · norm_num [joint_mapq_from_alignment_scores, qtrunc]
  · norm_num

/-- Nonnegative inputs have nonnegative truncation. -/
theorem qtrunc_nonneg {q : ℚ} (h : 0 ≤ q) : 0 ≤ qtrunc q := by
  unfold qtrunc
  rw [if_pos h]
  exact Int.floor_nonneg.mpr h

/-- Claim C7 (amended): `get_mapq` lies in `[0, 60]` for every seed list
sorted by score descending whose top seed is the head, has score at least 1
(so that `log` of it is nonnegative) and nonnegative `n_hits`; and both
components of `joint_mapq_from_alignment_scores(s1, s2)` lie in `[0, 60]`
whenever `s2 ≤ s1` (as at every call site, which passes the top two entries
of a list sorted by score descending). -/
theorem mapq_bounds (logf : ℚ → ℚ) (nams : List Nam) (n_max : Nam)
    (s1 s2 : ℚ)
    (hsorted : List.Sorted (fun a b : Nam => b.score ≤ a.score) nams)
    (hhead : nams.head? = some n_max)
    (hs1 : 1 ≤ n_max.score)
    (hlog : 0 ≤ logf n_max.score)
    (hnh : 0 ≤ n_max.n_hits)
    (hss : s2 ≤ s1) :
    (0 ≤ get_mapq logf nams n_max ∧ get_mapq logf nams n_max ≤ 60)
    ∧ (0 ≤ (joint_mapq_from_alignment_scores s1 s2).1
        ∧ (joint_mapq_from_alignment_scores s1 s2).1 ≤ 60
        ∧ 0 ≤ (joint_mapq_from_alignment_scores s1 s2).2
        ∧ (joint_mapq_from_alignment_scores s1 s2).2 ≤ 60) := by
  constructor
  · unfold get_mapq
    by_cases hlen : nams.length ≤ 1
    · simp [hlen]
    · rw [if_neg hlen]
      have hpos : (0 : ℚ) < n_max.score := lt_of_lt_of_le one_pos hs1
      have hs2le : (nams.getD 1 {}).score ≤ n_max.score := by
        match nams, hhead with
        | a :: rest, hhead =>
          have ha : a = n_max := by simpa using hhead
          match rest with
          | [] => simp at hlen
          | b :: t =>
            have hb : b.score ≤ a.score := by
              have := (List.sorted_cons.mp hsorted).1 b (by simp)
              exact this
            simpa [ha] using hb
      have hfac : (0 : ℚ) ≤ 1 - (nams.getD 1 {}).score / n_max.score := by
        have : (nams.getD 1 {}).score / n_max.score ≤ 1 :=
          (div_le_one hpos).mpr hs2le
        linarith
      have hmm : (0 : ℚ) ≤ min ((n_max.n_hits : ℚ) / 10) 1 := by
        have h0 : (0 : ℚ) ≤ (n_max.n_hits : ℚ) / 10 := by positivity
        exact le_min h0 zero_le_one
      have hprod : (0 : ℚ) ≤ 40 * (1 - (nams.getD 1 {}).score / n_max.score)
          * min ((n_max.n_hits : ℚ) / 10) 1 * logf n_max.score := by
        have h40 : (0 : ℚ) ≤ 40 := by norm_num
        exact mul_nonneg (mul_nonneg (mul_nonneg h40 hfac) hmm) hlog
      have htr : 0 ≤ qtrunc (40 * (1 - (nams.getD 1 {}).score / n_max.score)
          * min ((n_max.n_hits : ℚ) / 10) 1 * logf n_max.score) :=
        qtrunc_nonneg hprod
      have h0m : 0 ≤ min (qtrunc (40 * (1 - (nams.getD 1 {}).score / n_max.score)
          * min ((n_max.n_hits : ℚ) / 10) 1 * logf n_max.score)) 60 :=
        le_min htr (by norm_num)
      have h60 : min (qtrunc (40 * (1 - (nams.getD 1 {}).score / n_max.score)
          * min ((n_max.n_hits : ℚ) / 10) 1 * logf n_max.score)) 60 ≤ 60 :=
        min_le_right _ _
      have hmod : min (qtrunc (40 * (1 - (nams.getD 1 {}).score / n_max.score)
          * min ((n_max.n_hits : ℚ) / 10) 1 * logf n_max.score)) 60 % 256
          = min (qtrunc (40 * (1 - (nams.getD 1 {}).score / n_max.score)
              * min ((n_max.n_hits : ℚ) / 10) 1 * logf n_max.score)) 60 :=
        Int.emod_eq_of_lt h0m (by omega)
      constructor
      · rw [hmod]
        exact h0m
      · rw [hmod]
        exact h60
  · unfold joint_mapq_from_alignment_scores
    by_cases heq : s1 = s2
    · simp [heq]
    · rw [if_neg heq]
      have hlt : s2 < s1 := lt_of_le_of_ne hss fun h => heq h.symm
      have hdiff : 0 ≤ qtrunc (s1 - s2) := qtrunc_nonneg (by linarith)
      by_cases hc1 : 0 < s1 ∧ 0 < s2
      · have h0m : (0 : Int) ≤ min 60 (qtrunc (s1 - s2)) :=
          le_min (by norm_num) hdiff
        simp [hc1, h0m, min_le_left]
      · rw [if_neg hc1]
        by_cases hc2 : 0 < s1 ∧ s2 ≤ 0
        · simp [hc2]
        · rw [if_neg hc2]
          norm_num

/-- Witness for claim C7 (amended) at a concrete one-seed list and scores. -/
theorem mapq_bounds_witness :
    (1 : ℚ) ≤ ({ score := 1 } : Nam).score
    ∧ ((0 ≤ get_mapq (fun _ => 0) [{ score := 1 }] { score := 1 }
        ∧ get_mapq (fun _ => 0) [{ score := 1 }] { score := 1 } ≤ 60)
      ∧ (0 ≤ (joint_mapq_from_alignment_scores 1 0).1
          ∧ (joint_mapq_from_alignment_scores 1 0).1 ≤ 60
          ∧ 0 ≤ (joint_mapq_from_alignment_scores 1 0).2
          ∧ (joint_mapq_from_alignment_scores 1 0).2 ≤ 60)) :=
  ⟨le_refl 1,
   mapq_bounds (fun _ => 0) [{ score := 1 }] { score := 1 } 1 0
     (List.sorted_singleton _) rfl (le_refl 1) (le_refl 0) (le_refl 0)
     (by norm_num)⟩

/-- Claim C8: `i_dist_est::update` leaves the whole state unchanged when the
observation is at least 2000; otherwise it performs exactly one Welford
step: with `e = d - mu`, the mean grows by `e` divided by the pre-update
`sample_size`, `SSE` grows by `e * (d - new mu)`, `V` is `SSE/(n-1)` when the
pre-update `sample_size` exceeds 1 and `SSE` otherwise, `sigma` is the square
root of the new `V`, and `sample_size` grows by exactly 1. -/
theorem i_dist_est_update_welford (sqrtf : ℚ → ℚ) (st : i_dist_est)
    (dist : Int) :
    if 2000 ≤ dist then st.update sqrtf dist = st
    else
      (st.update sqrtf dist).mu
          = st.mu + ((dist : ℚ) - st.mu) / st.sample_size
      ∧ (st.update sqrtf dist).SSE
          = st.SSE + ((dist : ℚ) - st.mu)
              * ((dist : ℚ) - (st.update sqrtf dist).mu)
      ∧ (st.update sqrtf dist).V
          = (if 1 < st.sample_size
             then (st.update sqrtf dist).SSE / (st.sample_size - 1)
             else (st.update sqrtf dist).SSE)
      ∧ (st.update sqrtf dist).sigma = sqrtf ((st.update sqrtf dist).V)
      ∧ (st.update sqrtf dist).sample_size = st.sample_size + 1 := by
  by_cases h : (2000 : Int) ≤ dist
  · simp [i_dist_est.update, h]
  · simp [i_dist_est.update, h]

theorem insertDesc_perm {α : Type} (key : α → Int) (x : α) (l : List α) :
    (insertDesc key x l).Perm (x :: l) := by
  induction l with
  | nil => exact List.Perm.refl _
  | cons y ys ih =>
    unfold insertDesc
    by_cases h : key y < key x
    · rw [if_pos h]
    · rw [if_neg h]
      exact (ih.cons y).trans (List.Perm.swap x y ys)

theorem sortDesc_perm {α : Type} (key : α → Int) (l : List α) :
    (sortDesc key l).Perm l := by
  induction l with
  | nil => exact List.Perm.refl _
  | cons x xs ih =>
    exact (insertDesc_perm key x (sortDesc key xs)).trans (ih.cons x)

theorem insertDesc_pairwise {α : Type} (key : α → Int) (x : α) (l : List α)
    (h : List.Pairwise (fun a b => key b ≤ key a) l) :
    List.Pairwise (fun a b => key b ≤ key a) (insertDesc key x l) := by
  induction l with
  | nil => simp [insertDesc]
  | cons y ys ih =>
    rcases List.pairwise_cons.mp h with ⟨hy, hys⟩
    unfold insertDesc
    by_cases hxy : key y < key x
    · rw [if_pos hxy]
      refine List.pairwise_cons.mpr ⟨?_, h⟩
      intro b hb
      rcases List.mem_cons.mp hb with rfl | hb
      · exact le_of_lt hxy
      · exact le_trans (hy b hb) (le_of_lt hxy)
    · rw [if_neg hxy]
      refine List.pairwise_cons.mpr ⟨?_, ih hys⟩
      intro b hb
      rcases List.mem_cons.mp ((insertDesc_perm key x ys).mem_iff.mp hb)
        with rfl | hb
      · exact le_of_not_lt hxy
      · exact hy b hb

theorem sortDesc_pairwise {α : Type} (key : α → Int) (l : List α) :
    List.Pairwise (fun a b => key b ≤ key a) (sortDesc key l) := by
  induction l with
  | nil => simp [sortDesc]
  | cons x xs ih => exact insertDesc_pairwise key x (sortDesc key xs) ih

theorem indivLoop1_eq (added : List Int) (h1 : Int) (ns : List Nam) :
    indivLoop1 added (cppDiv h1 2) ns = indivSpec1 ns added h1 := by
  induction ns with
  | nil => simp [indivLoop1, indivSpec1]
  | cons n rest ih =>
    unfold indivLoop1 indivSpec1
    rw [List.takeWhile_cons]
    by_cases hlt : n.n_hits < cppDiv h1 2
    · have hc : ¬ (decide (cppDiv h1 2 ≤ n.n_hits) = true) := by
        simp [not_le.mpr hlt]
      rw [if_pos hlt, if_neg hc]
      simp
    · have hc : decide (cppDiv h1 2 ≤ n.n_hits) = true := by
        simp [not_lt.mp hlt]
      rw [if_neg hlt, if_pos hc, List.filter_cons]
      by_cases hm : n.nam_id ∈ added
      · have hcm : ¬ (decide (n.nam_id ∉ added) = true) := by simp [hm]
        rw [if_pos hm, if_neg hcm, ih, indivSpec1]
      · have hcm : decide (n.nam_id ∉ added) = true := by simp [hm]
        rw [if_neg hm, if_pos hcm, List.map_cons, ih, indivSpec1]

theorem indivLoop2_eq (added : List Int) (h2 : Int) (ns : List Nam) :
    indivLoop2 added (cppDiv h2 2) ns = indivSpec2 ns added h2 := by
  induction ns with
  | nil => simp [indivLoop2, indivSpec2]
  | cons n rest ih =>
    unfold indivLoop2 indivSpec2
    rw [List.takeWhile_cons]
    by_cases hlt : n.n_hits < cppDiv h2 2
    · have hc : ¬ (decide (cppDiv h2 2 ≤ n.n_hits) = true) := by
        simp [not_le.mpr hlt]
      rw [if_pos hlt, if_neg hc]
      simp
    · have hc : decide (cppDiv h2 2 ≤ n.n_hits) = true := by
        simp [not_lt.mp hlt]
      rw [if_neg hlt, if_pos hc, List.filter_cons]
      by_cases hm : n.nam_id ∈ added
      · have hcm : ¬ (decide (n.nam_id ∉ added) = true) := by simp [hm]
        rw [if_pos hm, if_neg hcm, ih, indivSpec2]
      · have hcm : decide (n.nam_id ∉ added) = true := by simp [hm]
        rw [if_neg hm, if_pos hcm, List.map_cons, ih, indivSpec2]

/-- The scores list accumulated by the inner joint loop only ever grows. -/
theorem jointInner_scores_append (n1 : Nam) (mu sigma : ℚ) (acc : JointAcc)
    (ns : List Nam) :
    ∃ tl, (jointInner n1 mu sigma acc ns).scores = acc.scores ++ tl := by
  induction ns generalizing acc with
  | nil => exact ⟨[], (List.append_nil _).symm⟩
  | cons n2 rest ih =>
    unfold jointInner
    by_cases hb : n1.n_hits + n2.n_hits < cppDiv acc.hjss 2
    · rw [if_pos hb]
      exact ⟨[], (List.append_nil _).symm⟩
    · rw [if_neg hb]
      by_cases hp : is_proper_nam_pair n1 n2 mu sigma
      · rw [if_pos hp]
        rcases ih { scores := acc.scores ++ [(n1.n_hits + n2.n_hits, n1, n2)],
                    added1 := acc.added1.insert n1.nam_id,
                    added2 := acc.added2.insert n2.nam_id,
                    hjss := if acc.hjss < n1.n_hits + n2.n_hits
                            then n1.n_hits + n2.n_hits else acc.hjss }
          with ⟨tl, htl⟩
        exact ⟨(n1.n_hits + n2.n_hits, n1, n2) :: tl, by
          rw [htl]; simp⟩
      · rw [if_neg hp]
        exact ih acc

/-- If the inner joint loop ends with an empty scores list, it did not
modify the accumulator at all. -/
theorem jointInner_of_scores_nil (n1 : Nam) (mu sigma : ℚ) (acc : JointAcc)
    (ns : List Nam) (h : (jointInner n1 mu sigma acc ns).scores = []) :
    jointInner n1 mu sigma acc ns = acc := by
  induction ns generalizing acc with
  | nil => rfl
  | cons n2 rest ih =>
    unfold jointInner at h ⊢
    by_cases hb : n1.n_hits + n2.n_hits < cppDiv acc.hjss 2
    · rw [if_pos hb]
    · rw [if_neg hb] at h ⊢
      by_cases hp : is_proper_nam_pair n1 n2 mu sigma
      · rw [if_pos hp] at h
        rcases jointInner_scores_append n1 mu sigma
            { scores := acc.scores ++ [(n1.n_hits + n2.n_hits, n1, n2)],
              added1 := acc.added1.insert n1.nam_id,
              added2 := acc.added2.insert n2.nam_id,
              hjss := if acc.hjss < n1.n_hits + n2.n_hits
                      then n1.n_hits + n2.n_hits else acc.hjss } rest
          with ⟨tl, htl⟩
        rw [htl] at h
        simp at h
      · rw [if_neg hp] at h ⊢
        exact ih acc h

/-- The scores list accumulated by the outer joint loop only ever grows. -/
theorem jointOuter_scores_append (nams2 : List Nam) (mu sigma : ℚ)
    (acc : JointAcc) (ns : List Nam) :
    ∃ tl, (jointOuter nams2 mu sigma acc ns).scores = acc.scores ++ tl := by
  induction ns generalizing acc with
  | nil => exact ⟨[], (List.append_nil _).symm⟩
  | cons n1 rest ih =>
    unfold jointOuter
    rcases jointInner_scores_append n1 mu sigma acc nams2 with ⟨tl1, h1⟩
    rcases ih (jointInner n1 mu sigma acc nams2) with ⟨tl2, h2⟩
    exact ⟨tl1 ++ tl2, by rw [h2, h1, List.append_assoc]⟩

/-- If the outer joint loop ends with an empty scores list, it did not
modify the accumulator at all: no proper pair was found. -/
theorem jointOuter_of_scores_nil (nams2 : List Nam) (mu sigma : ℚ)
    (acc : JointAcc) (ns : List Nam)
    (h : (jointOuter nams2 mu sigma acc ns).scores = []) :
    jointOuter nams2 mu sigma acc ns = acc := by
  induction ns generalizing acc with
  | nil => rfl
  | cons n1 rest ih =>
    unfold jointOuter at h ⊢
    have hmid : (jointInner n1 mu sigma acc nams2).scores = [] := by
      rcases jointOuter_scores_append nams2 mu sigma
          (jointInner n1 mu sigma acc nams2) rest with ⟨tl, htl⟩
      rw [htl] at h
      exact List.append_eq_nil.mp h |>.1
    have houter := ih (jointInner n1 mu sigma acc nams2) h
    rw [houter, jointInner_of_scores_nil n1 mu sigma acc nams2 hmid]

/-- Unfolded form of `get_best_scoring_nam_locations`: the joint candidates
followed by the two individual-candidate lists (in their takeWhile/filter
characterization), sorted by tuple score descending. -/
theorem gbsnl_eq (nams1 nams2 : List Nam) (mu sigma : ℚ) :
    get_best_scoring_nam_locations nams1 nams2 mu sigma
      = sortDesc (fun t => t.1)
          ((jointOuter nams2 mu sigma {} nams1).scores
            ++ indivSpec1 nams1 (jointOuter nams2 mu sigma {} nams1).added1
                (if 0 < (jointOuter nams2 mu sigma {} nams1).hjss
                 then (jointOuter nams2 mu sigma {} nams1).hjss
                 else (nams1.headD dummyNam).n_hits)
            ++ indivSpec2 nams2 (jointOuter nams2 mu sigma {} nams1).added2
                (if 0 < (jointOuter nams2 mu sigma {} nams1).hjss
                 then (jointOuter nams2 mu sigma {} nams1).hjss
                 else (nams2.headD dummyNam).n_hits)) := by
  by_cases hb : nams1 = [] ∧ nams2 = []
  · rcases hb with ⟨ha, hb2⟩
    subst ha
    subst hb2
    simp [get_best_scoring_nam_locations, jointOuter, indivSpec1, indivSpec2,
      sortDesc]
  · by_cases h1 : nams1 = []
    · subst h1
      have h2 : ¬ (nams2 = []) := fun h => hb ⟨rfl, h⟩
      simp only [get_best_scoring_nam_locations, hb, if_false,
        ← indivLoop1_eq, ← indivLoop2_eq]
      simp [h2, indivLoop1]
    · by_cases h2 : nams2 = []
      · subst h2
        simp only [get_best_scoring_nam_locations, hb, if_false,
          ← indivLoop1_eq, ← indivLoop2_eq]
        simp [h1, indivLoop2]
      · simp only [get_best_scoring_nam_locations, hb, if_false,
          ← indivLoop1_eq, ← indivLoop2_eq]
        simp [h1, h2]

/-- Claim C4 (amended): after the joint enumeration, the individual
candidates appended from `nams1` are exactly the not-yet-paired seeds in the
maximal prefix of `nams1` all of whose members have `n_hits` at least
`hjss1 / 2`, where `hjss1` is the highest joint hit count when positive and
`nams1[0].n_hits` otherwise (the source breaks at the first seed below the
threshold and never uses `max(H, nams1[0].n_hits)`); symmetrically for
`nams2`; the combined list is sorted by score descending (it is a sorted
permutation of joint plus individual candidates). -/
theorem gbsnl_individuals_characterized (nams1 nams2 : List Nam)
    (mu sigma : ℚ) :
    get_best_scoring_nam_locations nams1 nams2 mu sigma
      = sortDesc (fun t => t.1)
          ((jointOuter nams2 mu sigma {} nams1).scores
            ++ indivSpec1 nams1 (jointOuter nams2 mu sigma {} nams1).added1
                (if 0 < (jointOuter nams2 mu sigma {} nams1).hjss
                 then (jointOuter nams2 mu sigma {} nams1).hjss
                 else (nams1.headD dummyNam).n_hits)
            ++ indivSpec2 nams2 (jointOuter nams2 mu sigma {} nams1).added2
                (if 0 < (jointOuter nams2 mu sigma {} nams1).hjss
                 then (jointOuter nams2 mu sigma {} nams1).hjss
                 else (nams2.headD dummyNam).n_hits))
    ∧ List.Pairwise (fun a b : Int × Nam × Nam => b.1 ≤ a.1)
        (get_best_scoring_nam_locations nams1 nams2 mu sigma)
    ∧ (get_best_scoring_nam_locations nams1 nams2 mu sigma).Perm
        ((jointOuter nams2 mu sigma {} nams1).scores
          ++ indivSpec1 nams1 (jointOuter nams2 mu sigma {} nams1).added1
              (if 0 < (jointOuter nams2 mu sigma {} nams1).hjss
               then (jointOuter nams2 mu sigma {} nams1).hjss
               else (nams1.headD dummyNam).n_hits)
          ++ indivSpec2 nams2 (jointOuter nams2 mu sigma {} nams1).added2
              (if 0 < (jointOuter nams2 mu sigma {} nams1).hjss
               then (jointOuter nams2 mu sigma {} nams1).hjss
               else (nams2.headD dummyNam).n_hits)) := by
  refine ⟨gbsnl_eq nams1 nams2 mu sigma, ?_, ?_⟩
  · rw [gbsnl_eq]
    exact sortDesc_pairwise _ _
  · rw [gbsnl_eq]
    exact sortDesc_perm _ _

/-- Claim C4 counterexample: with the highest joint hit count `H = 5`, the
unpaired seed `c4NamD` has `n_hits = 10`, which is below
`max(H, nams1[0].n_hits)/2 = 50`, yet it is appended as an individual
candidate (the source thresholds on `H/2 = 2`). -/
theorem gbsnl_individual_below_claim_threshold :
    (jointOuter [c4NamC] 300 10 {} [c4NamA, c4NamD, c4NamB]).hjss = 5
    ∧ ((10 : Int), c4NamD, dummyNam)
        ∈ get_best_scoring_nam_locations [c4NamA, c4NamD, c4NamB] [c4NamC]
            300 10
    ∧ c4NamD.n_hits
        < cppDiv (max 5 ([c4NamA, c4NamD, c4NamB].headD dummyNam).n_hits) 2 := by
  have hpAC : ¬ is_proper_nam_pair c4NamA c4NamC 300 10 := by
    norm_num [is_proper_nam_pair, c4NamA, c4NamC]
  have hpDC : ¬ is_proper_nam_pair c4NamD c4NamC 300 10 := by
    norm_num [is_proper_nam_pair, c4NamD, c4NamC]
  have hpBC : is_proper_nam_pair c4NamB c4NamC 300 10 := by
    norm_num [is_proper_nam_pair, c4NamB, c4NamC]
  have hd0 : cppDiv 0 2 = 0 := by decide
  have hd5 : cppDiv 5 2 = 2 := by decide
  have hjoint :
      jointOuter [c4NamC] 300 10 {} [c4NamA, c4NamD, c4NamB]
        = { scores := [(5, c4NamB, c4NamC)], added1 := [2], added2 := [3],
            hjss := 5 } := by
    simp [jointOuter, jointInner, hpAC, hpDC, hpBC, hd0, List.insert,
      show c4NamA.n_hits = 100 from rfl, show c4NamD.n_hits = 10 from rfl,
      show c4NamB.n_hits = 3 from rfl, show c4NamC.n_hits = 2 from rfl,
      show c4NamB.nam_id = 2 from rfl, show c4NamC.nam_id = 3 from rfl]
  refine ⟨by rw [hjoint], ?_, by decide⟩
  rw [gbsnl_eq, hjoint]
  have hspec :
      indivSpec1 [c4NamA, c4NamD, c4NamB] [2]
          (if (0 : Int) < 5 then 5
           else ([c4NamA, c4NamD, c4NamB].headD dummyNam).n_hits)
        = [(100, c4NamA, dummyNam), (10, c4NamD, dummyNam)] := by
    rw [if_pos (show (0 : Int) < 5 by decide)]
    decide
  have hspec2 :
      indivSpec2 [c4NamC] [3]
          (if (0 : Int) < 5 then 5 else ([c4NamC].headD dummyNam).n_hits)
        = [] := by
    rw [if_pos (show (0 : Int) < 5 by decide)]
    decide
  rw [hspec, hspec2]
  decide

/-- A descending sort is empty only when its input is. -/
theorem sortDesc_eq_nil {α : Type} (key : α → Int) (l : List α)
    (h : sortDesc key l = []) : l = [] := by
  have hperm := sortDesc_perm key l
  rw [h] at hperm
  exact hperm.symm.eq_nil

/-- Seeds' `n_hits` are nonnegative, so half the top value never exceeds it. -/
theorem cppDiv_two_le_self {a : Int} (h : 0 ≤ a) : cppDiv a 2 ≤ a := by
  unfold cppDiv
  rcases Int.le.dest h with ⟨n, rfl⟩
  simp only [zero_add]
  have hn : (n : Int).tdiv 2 = ((n / 2 : Nat) : Int) := rfl
  rw [hn]
  exact_mod_cast Nat.div_le_self n 2

/-- Claim C10: whenever at least one input seed list is non-empty (and seed
hit counts are nonnegative, as they are counts), the joint candidate list is
non-empty, so `align_PE`'s unconditional access to its first element is in
bounds. -/
theorem gbsnl_nonempty (nams1 nams2 : List Nam) (mu sigma : ℚ)
    (hn1 : ∀ n ∈ nams1, 0 ≤ n.n_hits) (hn2 : ∀ n ∈ nams2, 0 ≤ n.n_hits)
    (hne : nams1 ≠ [] ∨ nams2 ≠ []) :
    get_best_scoring_nam_locations nams1 nams2 mu sigma ≠ [] := by
  rw [gbsnl_eq]
  intro hnil
  have hcomb := sortDesc_eq_nil _ _ hnil
  rcases List.append_eq_nil.mp hcomb with ⟨h12, hsp2⟩
  rcases List.append_eq_nil.mp h12 with ⟨hsc, hsp1⟩
  have hjp := jointOuter_of_scores_nil nams2 mu sigma {} nams1 hsc
  rw [hjp] at hsp1 hsp2
  rcases hne with hne1 | hne2
  · match nams1, hne1 with
    | n :: t, _ =>
      have hnn : 0 ≤ n.n_hits := hn1 n (List.mem_cons_self n t)
      have hp : decide (cppDiv (if (0 : Int) < ({} : JointAcc).hjss
          then ({} : JointAcc).hjss else ((n :: t).headD dummyNam).n_hits) 2
          ≤ n.n_hits) = true := by
        have : ¬ ((0 : Int) < ({} : JointAcc).hjss) := by decide
        simp only [this, if_false, List.headD_cons]
        simpa using cppDiv_two_le_self hnn
      have : indivSpec1 (n :: t) ({} : JointAcc).added1
          (if (0 : Int) < ({} : JointAcc).hjss
           then ({} : JointAcc).hjss else ((n :: t).headD dummyNam).n_hits)
          ≠ [] := by
        unfold indivSpec1
        rw [List.takeWhile_cons, if_pos hp, List.filter_cons,
          if_pos (by simp [show ({} : JointAcc).added1 = [] from rfl])]
        simp
      exact this hsp1
  · match nams2, hne2 with
    | n :: t, _ =>
      have hnn : 0 ≤ n.n_hits := hn2 n (List.mem_cons_self n t)
      have hp : decide (cppDiv (if (0 : Int) < ({} : JointAcc).hjss
          then ({} : JointAcc).hjss else ((n :: t).headD dummyNam).n_hits) 2
          ≤ n.n_hits) = true := by
        have : ¬ ((0 : Int) < ({} : JointAcc).hjss) := by decide
        simp only [this, if_false, List.headD_cons]
        simpa using cppDiv_two_le_self hnn
      have : indivSpec2 (n :: t) ({} : JointAcc).added2
          (if (0 : Int) < ({} : JointAcc).hjss
           then ({} : JointAcc).hjss else ((n :: t).headD dummyNam).n_hits)
          ≠ [] := by
        unfold indivSpec2
        rw [List.takeWhile_cons, if_pos hp, List.filter_cons,
          if_pos (by simp [show ({} : JointAcc).added2 = [] from rfl])]
        simp
      exact this hsp2

/-- Witness for claim C10 at a concrete one-seed list. -/
theorem gbsnl_nonempty_witness :
    ([namACGT] ≠ ([] : List Nam) ∨ ([] : List Nam) ≠ [])
    ∧ get_best_scoring_nam_locations [namACGT] [] 0 0 ≠ [] :=
  ⟨Or.inl (by simp),
   gbsnl_nonempty [namACGT] [] 0 0 (by decide) (by decide)
     (Or.inl (by simp))⟩

/-- The sampling loop, with enough fuel and a positive stride, accepts
exactly when some sampled submer at or after offset `i` is an infix of the
window. -/
theorem hssLoop_iff (mate window : List Char) (sub step : Nat)
    (hstep : 1 ≤ step) (i fuel : Nat)
    (hfuel : mate.length ≤ i + fuel * step) :
    hssLoop mate window sub step i fuel = true
      ↔ ∃ j : Nat, i + j * step + sub < mate.length
          ∧ (substrN mate (i + j * step) sub) <:+: window := by
  induction fuel generalizing i with
  | zero =>
    simp only [hssLoop, Nat.zero_mul] at hfuel ⊢
    constructor
    · intro h
      exact absurd h (by simp)
    · rintro ⟨j, hj, _⟩
      have hge : (0 : Nat) ≤ j * step := Nat.zero_le _
      omega
  | succ fuel ih =>
    simp only [hssLoop]
    by_cases hcond : i + sub < mate.length
    · rw [if_pos hcond]
      by_cases hinf : (substrN mate i sub) <:+: window
      · rw [if_pos hinf]
        constructor
        · intro _
          exact ⟨0, by simpa using hcond, by simpa using hinf⟩
        · intro _
          rfl
      · rw [if_neg hinf]
        have hfuel2 : mate.length ≤ (i + step) + fuel * step := by
          have hsm : (fuel + 1) * step = fuel * step + step := by ring
          omega
        rw [ih (i + step) hfuel2]
        constructor
        · rintro ⟨j, hj1, hj2⟩
          refine ⟨j + 1, ?_, ?_⟩
          · have hsm : (j + 1) * step = j * step + step := by ring
            omega
          · have harith : i + step + j * step = i + (j + 1) * step := by
              ring
            rw [harith] at hj2
            exact hj2
        · rintro ⟨j, hj1, hj2⟩
          match j, hj1, hj2 with
          | 0, hj1, hj2 =>
            exfalso
            exact hinf (by simpa using hj2)
          | j + 1, hj1, hj2 =>
            refine ⟨j, ?_, ?_⟩
            · have hsm : (j + 1) * step = j * step + step := by ring
              omega
            · have harith : i + (j + 1) * step = i + step + j * step := by
                ring
              rw [harith] at hj2
              exact hj2
    · rw [if_neg hcond]
      constructor
      · intro h
        exact absurd h (by simp)
      · rintro ⟨j, hj1, _⟩
        have hge : (0 : Nat) ≤ j * step := Nat.zero_le _
        omega

/-- `has_shared_substring` agrees with the claim-side sampled-substring
predicate for every `k ≥ 3`. -/
theorem has_shared_substring_iff (mate window : List Char) (k : Nat)
    (hk : 3 ≤ k) :
    has_shared_substring mate window k = true
      ↔ sharedSubstringSpec mate window k := by
  have hstep : 1 ≤ k / 3 := (Nat.one_le_div_iff (by norm_num)).mpr hk
  have hfuel : mate.length ≤ 0 + (mate.length + 1) * (k / 3) := by
    have := Nat.le_mul_of_pos_right (mate.length + 1) hstep
    omega
  unfold has_shared_substring sharedSubstringSpec
  rw [hssLoop_iff mate window (2 * k / 3) (k / 3) hstep 0 (mate.length + 1)
    hfuel]
  constructor
  · rintro ⟨j, hj1, hj2⟩
    exact ⟨j, by simpa using hj1, by simpa using hj2⟩
  · rintro ⟨j, hj1, hj2⟩
    exact ⟨j, by simpa using hj1, by simpa using hj2⟩

/-- Branch-level unfolding of `rescue_mate`. -/
theorem rescue_mate_eq (aligner : Aligner) (nam : Nam)
    (references : References) (guide read : Read) (mu sigma : ℚ) (k : Nat) :
    rescue_mate aligner nam references guide read mu sigma k
      = (if rescueRefEnd (rescueNam nam guide references k) read references mu
            sigma
          < rescueRefStart (rescueNam nam guide references k) read references
              mu sigma + (k : Int) then
          (false, rescueSentinel (rescueNam nam guide references k) read.size)
        else if has_shared_substring
            (rescueQuery (rescueNam nam guide references k) read)
            (rescueSegm (rescueNam nam guide references k) read references mu
              sigma) k = false then
          (false, rescueSentinel (rescueNam nam guide references k) read.size)
        else
          (true,
            { cigar := (aligner.kernel.align
                (rescueQuery (rescueNam nam guide references k) read)
                (rescueSegm (rescueNam nam guide references k) read references
                  mu sigma)).cigar,
              edit_distance := (aligner.kernel.align
                (rescueQuery (rescueNam nam guide references k) read)
                (rescueSegm (rescueNam nam guide references k) read references
                  mu sigma)).edit_distance,
              score := (aligner.kernel.align
                (rescueQuery (rescueNam nam guide references k) read)
                (rescueSegm (rescueNam nam guide references k) read references
                  mu sigma)).sw_score,
              ref_start := rescueRefStart (rescueNam nam guide references k)
                  read references mu sigma
                + (aligner.kernel.align
                  (rescueQuery (rescueNam nam guide references k) read)
                  (rescueSegm (rescueNam nam guide references k) read
                    references mu sigma)).ref_start,
              is_rc := !(rescueNam nam guide references k).is_rc,
              ref_id := (rescueNam nam guide references k).ref_id,
              is_unaligned := (aligner.kernel.align
                (rescueQuery (rescueNam nam guide references k) read)
                (rescueSegm (rescueNam nam guide references k) read references
                  mu sigma)).cigar.isEmpty,
              length := (aligner.kernel.align
                (rescueQuery (rescueNam nam guide references k) read)
                (rescueSegm (rescueNam nam guide references k) read references
                  mu sigma)).ref_span })) := by
  unfold rescue_mate
  rfl

/-- Claim C6: `rescue_mate` returns `attempted = false` with the unaligned
sentinel (`score = 0`, `edit_distance = read_len`, `is_unaligned = true`)
exactly when the clamped window is shorter than `k` or no length-`⌊2k/3⌋`
substring of the mate sampled at stride `⌊k/3⌋` occurs in the window; in
every other case it runs the external aligner, fills the Alignment from the
kernel result, and returns `attempted = true`.  The hypothesis `k ≥ 3` keeps
the C++ sampling loop finite. -/
theorem rescue_mate_attempted_iff (aligner : Aligner) (nam : Nam)
    (references : References) (guide read : Read) (mu sigma : ℚ) (k : Nat)
    (hk : 3 ≤ k) :
    ((rescue_mate aligner nam references guide read mu sigma k).1 = false
      ↔ (rescueRefEnd (rescueNam nam guide references k) read references mu
            sigma
          - rescueRefStart (rescueNam nam guide references k) read references
              mu sigma < (k : Int)
        ∨ ¬ sharedSubstringSpec
            (rescueQuery (rescueNam nam guide references k) read)
            (rescueSegm (rescueNam nam guide references k) read references mu
              sigma) k))
    ∧ (rescue_mate aligner nam references guide read mu sigma k).2.score
        = (if (rescue_mate aligner nam references guide read mu sigma k).1
           then (aligner.kernel.align
              (rescueQuery (rescueNam nam guide references k) read)
              (rescueSegm (rescueNam nam guide references k) read references
                mu sigma)).sw_score
           else 0)
    ∧ (rescue_mate aligner nam references guide read mu sigma
          k).2.edit_distance
        = (if (rescue_mate aligner nam references guide read mu sigma k).1
           then (aligner.kernel.align
              (rescueQuery (rescueNam nam guide references k) read)
              (rescueSegm (rescueNam nam guide references k) read references
                mu sigma)).edit_distance
           else (read.size : Int))
    ∧ (rescue_mate aligner nam references guide read mu sigma
          k).2.is_unaligned
        = (if (rescue_mate aligner nam references guide read mu sigma k).1
           then (aligner.kernel.align
              (rescueQuery (rescueNam nam guide references k) read)
              (rescueSegm (rescueNam nam guide references k) read references
                mu sigma)).cigar.isEmpty
           else true)
    ∧ (rescue_mate aligner nam references guide read mu sigma k).2.cigar
        = (if (rescue_mate aligner nam references guide read mu sigma k).1
           then (aligner.kernel.align
              (rescueQuery (rescueNam nam guide references k) read)
              (rescueSegm (rescueNam nam guide references k) read references
                mu sigma)).cigar
           else []) := by
  by_cases h1 : rescueRefEnd (rescueNam nam guide references k) read
      references mu sigma
      < rescueRefStart (rescueNam nam guide references k) read references mu
          sigma + (k : Int)
  · have hr : rescue_mate aligner nam references guide read mu sigma k
        = (false, rescueSentinel (rescueNam nam guide references k)
            read.size) := by
      unfold rescue_mate
      rw [if_pos h1]
    rw [hr]
    refine ⟨?_, by simp [rescueSentinel], by simp [rescueSentinel],
      by simp [rescueSentinel], by simp [rescueSentinel]⟩
    simp only [true_iff]
    exact Or.inl (by omega)
  · by_cases h2 : has_shared_substring
        (rescueQuery (rescueNam nam guide references k) read)
        (rescueSegm (rescueNam nam guide references k) read references mu
          sigma) k = false
    · have hr : rescue_mate aligner nam references guide read mu sigma k
          = (false, rescueSentinel (rescueNam nam guide references k)
              read.size) := by
        unfold rescue_mate
        rw [if_neg h1, if_pos h2]
      rw [hr]
      refine ⟨?_, by simp [rescueSentinel], by simp [rescueSentinel],
        by simp [rescueSentinel], by simp [rescueSentinel]⟩
      simp only [true_iff]
      refine Or.inr ?_
      intro hspec
      have := (has_shared_substring_iff _ _ k hk).mpr hspec
      rw [h2] at this
      exact absurd this (by simp)
    · have hr : rescue_mate aligner nam references guide read mu sigma k
          = (true,
            { cigar := (aligner.kernel.align
                (rescueQuery (rescueNam nam guide references k) read)
                (rescueSegm (rescueNam nam guide references k) read references
                  mu sigma)).cigar,
              edit_distance := (aligner.kernel.align
                (rescueQuery (rescueNam nam guide references k) read)
                (rescueSegm (rescueNam nam guide references k) read references
                  mu sigma)).edit_distance,
              score := (aligner.kernel.align
                (rescueQuery (rescueNam nam guide references k) read)
                (rescueSegm (rescueNam nam guide references k) read references
                  mu sigma)).sw_score,
              ref_start := rescueRefStart (rescueNam nam guide references k)
                  read references mu sigma
                + (aligner.kernel.align
                  (rescueQuery (rescueNam nam guide references k) read)
                  (rescueSegm (rescueNam nam guide references k) read
                    references mu sigma)).ref_start,
              is_rc := !(rescueNam nam guide references k).is_rc,
              ref_id := (rescueNam nam guide references k).ref_id,
              is_unaligned := (aligner.kernel.align
                (rescueQuery (rescueNam nam guide references k) read)
                (rescueSegm (rescueNam nam guide references k) read references
                  mu sigma)).cigar.isEmpty,
              length := (aligner.kernel.align
                (rescueQuery (rescueNam nam guide references k) read)
                (rescueSegm (rescueNam nam guide references k) read references
                  mu sigma)).ref_span }) := by
        unfold rescue_mate
        rw [if_neg h1, if_neg h2]
      rw [hr]
      refine ⟨?_, by simp, by simp, by simp, by simp⟩
      constructor
      · intro h
        exact absurd h (by simp)
      · rintro (hwin | hspec)
        · exact absurd (by omega : rescueRefEnd (rescueNam nam guide
            references k) read references mu sigma
            < rescueRefStart (rescueNam nam guide references k) read
                references mu sigma + (k : Int)) h1
        · exfalso
          apply hspec
          have hb : has_shared_substring
              (rescueQuery (rescueNam nam guide references k) read)
              (rescueSegm (rescueNam nam guide references k) read references
                mu sigma) k = true := by
            simpa using h2
          exact (has_shared_substring_iff _ _ k hk).mp hb

/-- Witness for claim C6 at concrete inputs with `k = 3`. -/
theorem rescue_mate_attempted_iff_witness :
    3 ≤ 3
    ∧ (((rescue_mate emptyAligner namACGT refsACGT readACGT readACGT
            0 0 3).1 = false
        ↔ (rescueRefEnd (rescueNam namACGT readACGT refsACGT 3) readACGT
              refsACGT 0 0
            - rescueRefStart (rescueNam namACGT readACGT refsACGT 3) readACGT
                refsACGT 0 0 < (3 : Int)
          ∨ ¬ sharedSubstringSpec
              (rescueQuery (rescueNam namACGT readACGT refsACGT 3) readACGT)
              (rescueSegm (rescueNam namACGT readACGT refsACGT 3) readACGT
                refsACGT 0 0) 3))) :=
  ⟨by norm_num,
   ((rescue_mate_attempted_iff emptyAligner namACGT
       refsACGT readACGT readACGT 0 0 3 (by norm_num)).1)⟩

/-- Claim C3 counterexample: at this input the gapped kernel returns an
empty CIGAR, yet `get_alignment` marks the result `is_unaligned = false`. -/
theorem get_alignment_empty_cigar_not_unaligned :
    (get_alignment emptyAligner namACGT refsACGT readACGT false).cigar = []
    ∧ (get_alignment emptyAligner namACGT refsACGT readACGT
        false).is_unaligned = false := by
  constructor
  · decide
  · decide

/-- Claim C3 (amended): `rescue_mate` marks its alignment unaligned exactly
when it did not attempt alignment or the kernel returned an empty CIGAR, but
`get_alignment` sets `is_unaligned = false` unconditionally (in both the
ungapped and the gapped path), even when the kernel returned an empty
CIGAR. -/
theorem is_unaligned_vs_empty_cigar (aligner : Aligner) (nam : Nam)
    (references : References) (guide read : Read) (consistent_nam : Bool)
    (mu sigma : ℚ) (k : Nat) :
    (get_alignment aligner nam references read consistent_nam).is_unaligned
        = false
    ∧ (rescue_mate aligner nam references guide read mu sigma
          k).2.is_unaligned
        = (!(rescue_mate aligner nam references guide read mu sigma k).1
            || ((rescue_mate aligner nam references guide read mu sigma
                k).2.cigar.isEmpty)) := by
  constructor
  · simp only [get_alignment]
    split
    · simp [extendAlignment]
    · simp [extendAlignment]
  · rw [rescue_mate_eq]
    split_ifs with h1 h2
    · simp [rescueSentinel]
    · simp [rescueSentinel]
    · simp

/-- With the edit-distance exit inactive, the tracked `global_ed` does not
influence the count. -/
theorem specTriedSE_bg_irrel (step : Nam → Alignment) (θ : ℚ)
    (max_tries top_hits : Int) (ns : List Nam) :
    ∀ (tries bs bg1 bg2 : Int),
    specTriedSE false step θ max_tries top_hits ns tries bs bg1
      = specTriedSE false step θ max_tries top_hits ns tries bs bg2 := by
  induction ns with
  | nil => intro tries bs bg1 bg2; rfl
  | cons nam rest ih =>
    intro tries bs bg1 bg2
    unfold specTriedSE
    by_cases hstop : max_tries ≤ tries
        ∨ ((false : Bool) = true ∧ 1 < tries ∧ bg1 = 0)
        ∨ ((nam.n_hits : ℚ) / (top_hits : ℚ) < θ)
    · have hstop2 : max_tries ≤ tries
          ∨ ((false : Bool) = true ∧ 1 < tries ∧ bg2 = 0)
          ∨ ((nam.n_hits : ℚ) / (top_hits : ℚ) < θ) := by
        rcases hstop with h | h | h
        · exact Or.inl h
        · exact absurd h.1 (by simp)
        · exact Or.inr (Or.inr h)
      rw [if_pos hstop, if_pos hstop2]
    · have hstop2 : ¬ (max_tries ≤ tries
          ∨ ((false : Bool) = true ∧ 1 < tries ∧ bg2 = 0)
          ∨ ((nam.n_hits : ℚ) / (top_hits : ℚ) < θ)) := by
        intro h
        apply hstop
        rcases h with h | h | h
        · exact Or.inl h
        · exact absurd h.1 (by simp)
        · exact Or.inr (Or.inr h)
      rw [if_neg hstop, if_neg hstop2]
      by_cases hbs : bs < (step nam).score
      · rw [if_pos hbs, if_pos hbs]
      · rw [if_neg hbs, if_neg hbs]
        rw [ih (tries + 1) bs bg1 bg2]

/-- The attempted-alignment count of the seed loop follows the amended stop
rule, whose edit-distance exit requires `max_secondary = 0`, provided
`best_edit_distance` is `INT_MAX` whenever `max_secondary ≠ 0` (as at
initialization; the loop only writes it when `max_secondary = 0`). -/
theorem seLoop_tried_eq (aligner : Aligner) (read : Read) (k : Nat)
    (references : References) (θ : ℚ) (max_tries : Int) (max_secondary : Nat)
    (top_hits : Int) (ns : List Nam) :
    ∀ (st : SEState),
    (max_secondary ≠ 0 → st.best_edit_distance = 2147483647) →
    (seLoop aligner read k references θ max_tries max_secondary top_hits ns
        st).details.tried_alignment
      = st.details.tried_alignment
        + specTriedSE (max_secondary == 0)
            (fun nam => get_alignment aligner
              (reverse_nam_if_needed nam read references k).2 references read
              (reverse_nam_if_needed nam read references k).1)
            θ max_tries top_hits ns st.tries st.best_score
            st.best_edit_distance := by
  induction ns with
  | nil =>
    intro st hbed
    simp [seLoop, specTriedSE]
  | cons nam rest ih =>
    intro st hbed
    unfold seLoop specTriedSE
    by_cases hms : max_secondary = 0
    · subst hms
      by_cases hstop : max_tries ≤ st.tries
          ∨ (1 < st.tries ∧ st.best_edit_distance = 0)
          ∨ ((nam.n_hits : ℚ) / (top_hits : ℚ) < θ)
      · have hspec : max_tries ≤ st.tries
            ∨ (((0 : Nat) == 0) = true ∧ 1 < st.tries
                ∧ st.best_edit_distance = 0)
            ∨ ((nam.n_hits : ℚ) / (top_hits : ℚ) < θ) := by
          rcases hstop with h | h | h
          · exact Or.inl h
          · exact Or.inr (Or.inl ⟨by simp, h.1, h.2⟩)
          · exact Or.inr (Or.inr h)
        rw [if_pos hstop, if_pos hspec]
        simp
      · have hspec : ¬ (max_tries ≤ st.tries
            ∨ (((0 : Nat) == 0) = true ∧ 1 < st.tries
                ∧ st.best_edit_distance = 0)
            ∨ ((nam.n_hits : ℚ) / (top_hits : ℚ) < θ)) := by
          intro h
          apply hstop
          rcases h with h | h | h
          · exact Or.inl h
          · exact Or.inr (Or.inl ⟨h.2.1, h.2.2⟩)
          · exact Or.inr (Or.inr h)
        rw [if_neg hstop, if_neg hspec]
        dsimp only
        by_cases hupd : st.best_score
            < (get_alignment aligner
                (reverse_nam_if_needed nam read references k).2 references
                read (reverse_nam_if_needed nam read references k).1).score
        · rw [if_pos hupd, if_pos hupd]
          rw [ih _ (fun hcontra => absurd rfl hcontra)]
          dsimp only
          simp only [reduceIte]
          omega
        · rw [if_neg hupd, if_neg hupd]
          rw [ih _ (fun hcontra => absurd rfl hcontra)]
          dsimp only
          omega
    · have hbed2 := hbed hms
      have hbeq : ((max_secondary == 0) : Bool) = false := by
        simp [hms]
      rw [hbeq]
      by_cases hstop : max_tries ≤ st.tries
          ∨ ((nam.n_hits : ℚ) / (top_hits : ℚ) < θ)
      · have hloop : max_tries ≤ st.tries
            ∨ (1 < st.tries ∧ st.best_edit_distance = 0)
            ∨ ((nam.n_hits : ℚ) / (top_hits : ℚ) < θ) := by
          rcases hstop with h | h
          · exact Or.inl h
          · exact Or.inr (Or.inr h)
        have hspec : max_tries ≤ st.tries
            ∨ ((false : Bool) = true ∧ 1 < st.tries
                ∧ st.best_edit_distance = 0)
            ∨ ((nam.n_hits : ℚ) / (top_hits : ℚ) < θ) := by
          rcases hstop with h | h
          · exact Or.inl h
          · exact Or.inr (Or.inr h)
        rw [if_pos hloop, if_pos hspec]
        simp
      · have hloop : ¬ (max_tries ≤ st.tries
            ∨ (1 < st.tries ∧ st.best_edit_distance = 0)
            ∨ ((nam.n_hits : ℚ) / (top_hits : ℚ) < θ)) := by
          intro h
          apply hstop
          rcases h with h | h | h
          · exact Or.inl h
          · exfalso
            rw [hbed2] at h
            omega
          · exact Or.inr h
        have hspec : ¬ (max_tries ≤ st.tries
            ∨ ((false : Bool) = true ∧ 1 < st.tries
                ∧ st.best_edit_distance = 0)
            ∨ ((nam.n_hits : ℚ) / (top_hits : ℚ) < θ)) := by
          intro h
          apply hstop
          rcases h with h | h | h
          · exact Or.inl h
          · exact absurd h.1 (by simp)
          · exact Or.inr h
        rw [if_neg hloop, if_neg hspec]
        dsimp only
        by_cases hupd : st.best_score
            < (get_alignment aligner
                (reverse_nam_if_needed nam read references k).2 references
                read (reverse_nam_if_needed nam read references k).1).score
        · rw [if_pos hupd, if_pos hupd]
          rw [ih _ (fun _ => by
            simp only [if_neg hms]
            exact hbed2)]
          rw [hbeq]
          dsimp only
          simp only [if_neg hms]
          rw [specTriedSE_bg_irrel
            (fun nam => get_alignment aligner
              (reverse_nam_if_needed nam read references k).2 references read
              (reverse_nam_if_needed nam read references k).1)
            θ max_tries top_hits rest (st.tries + 1)
            (get_alignment aligner
              (reverse_nam_if_needed nam read references k).2 references read
              (reverse_nam_if_needed nam read references k).1).score
            st.best_edit_distance
            (get_alignment aligner
              (reverse_nam_if_needed nam read references k).2 references read
              (reverse_nam_if_needed nam read references k).1).global_ed]
          omega
        · rw [if_neg hupd, if_neg hupd]
          rw [ih _ (fun _ => by exact hbed2)]
          rw [hbeq]
          dsimp only
          omega

/-- Claim C2 (amended): for every seed list, the number of alignments
`align_SE` attempts equals the claimed stop-rule count with the
`global_ed == 0` early exit active only when `max_secondary == 0` (the loop
tracks `best_edit_distance` only in that case; for `max_secondary > 0` it
stays at `INT_MAX` and that exit never fires). -/
theorem align_SE_tried_characterized (aligner : Aligner) (nams : List Nam)
    (read : Read) (k : Nat) (references : References) (θ : ℚ)
    (max_tries : Int) (max_secondary : Nat) :
    (align_SE aligner nams read k references θ max_tries
        max_secondary).2.tried_alignment
      = specTriedSE (max_secondary == 0)
          (fun nam => get_alignment aligner
            (reverse_nam_if_needed nam read references k).2 references read
            (reverse_nam_if_needed nam read references k).1)
          θ max_tries ((nams.headD dummyNam).n_hits) nams 0 (-1000)
          2147483647 := by
  match nams with
  | [] => simp [align_SE, specTriedSE]
  | n_max :: rest =>
    have hloop := seLoop_tried_eq aligner read k references θ max_tries
      max_secondary n_max.n_hits (n_max :: rest) seInit
      (fun _ => rfl)
    have hemit : (align_SE aligner (n_max :: rest) read k references θ
          max_tries max_secondary).2
        = (seLoop aligner read k references θ max_tries max_secondary
            n_max.n_hits (n_max :: rest) seInit).details := by
      unfold align_SE
      dsimp only
      by_cases hms : max_secondary = 0
      · rw [if_pos hms]
      · rw [if_neg hms]
    rw [hemit, hloop]
    simp [seInit]

/-- Claim C2 counterexample: with `max_secondary = 1` and three perfect
seeds, `align_SE` attempts all three alignments, while the stop rule as the
claim words it (applying the `global_ed == 0` exit regardless of
`max_secondary`) stops after two. -/
theorem align_SE_stop_counterexample :
    (align_SE c2Aligner [c2Nam 1, c2Nam 2, c2Nam 3] readACGT 2 refsACGT 0 10
        1).2.tried_alignment = 3
    ∧ specTriedSE true
        (fun nam => get_alignment c2Aligner
          (reverse_nam_if_needed nam readACGT refsACGT 2).2 refsACGT readACGT
          (reverse_nam_if_needed nam readACGT refsACGT 2).1)
        0 10 1 [c2Nam 1, c2Nam 2, c2Nam 3] 0 (-1000) 2147483647 = 2 := by
  have hrev : ∀ i : Int, reverse_nam_if_needed (c2Nam i) readACGT refsACGT 2
      = (true, c2Nam i) := by
    intro i
    have hc : rnfCheck (c2Nam i) readACGT refsACGT 2 := by
      unfold rnfCheck
      dsimp only [c2Nam]
      decide
    unfold reverse_nam_if_needed
    rw [if_pos hc]
  have halign : ∀ i : Int,
      get_alignment c2Aligner (c2Nam i) refsACGT readACGT true
        = { cigar := [(4, 'M')], edit_distance := 0, global_ed := 0,
            score := 4, ref_start := 0, ref_id := 0, length := 4,
            is_rc := false, is_unaligned := false, gapped := false,
            mapq := 0 } := by
    intro i
    norm_num [get_alignment, extendAlignment, hamming_distance,
      hamming_distance.mismatchCount, substrN, c2Nam, c2Aligner, readACGT,
      refsACGT, Read.size, AlnInfo.ref_span]
  constructor
  · norm_num [align_SE, seLoop, seInit, hrev, halign,
      (show ∀ i : Int, (c2Nam i).n_hits = 1 from fun _ => rfl)]
  · norm_num [specTriedSE, hrev, halign,
      (show ∀ i : Int, (c2Nam i).n_hits = 1 from fun _ => rfl)]

/-- Claim C1 is contradicted by the code: with `max_secondary = 1` and a
secondary window of `2*mismatch + gap_open = 14`, `align_SE` still emits a
secondary alignment whose score (0) is 100 below the best (100).  The
emission filter compares `alignment.score - best_score > 14`, which can
never hold because `best_score` is the maximum score, so the window never
excludes anything. -/
theorem align_SE_emits_outside_secondary_window :
    ((align_SE c1Aligner [c1Nam1, c1Nam2] readACGT 2 c1Refs 0 10 1).1.map
        (fun r => match r with
          | SamRecord.unmapped => (0 : Int)
          | SamRecord.mapped a _ => a.score))
      = [100, 0]
    ∧ (2 * c1Aligner.params.mismatch + c1Aligner.params.gap_open : Int) = 14
    ∧ ((100 : Int) - 0 > 14) := by
  have hrev1 : reverse_nam_if_needed c1Nam1 readACGT c1Refs 2
      = (false, c1Nam1) := by
    have hc : ¬ rnfCheck c1Nam1 readACGT c1Refs 2 := by decide
    have hf : ¬ rnfFlipCheck c1Nam1 readACGT c1Refs 2 := by decide
    unfold reverse_nam_if_needed
    rw [if_neg hc, if_neg hf]
  have hrev2 : reverse_nam_if_needed c1Nam2 readACGT c1Refs 2
      = (false, c1Nam2) := by
    have hc : ¬ rnfCheck c1Nam2 readACGT c1Refs 2 := by decide
    have hf : ¬ rnfFlipCheck c1Nam2 readACGT c1Refs 2 := by decide
    unfold reverse_nam_if_needed
    rw [if_neg hc, if_neg hf]
  have halign1 : get_alignment c1Aligner c1Nam1 c1Refs readACGT false
      = { cigar := [(1, 'M')], edit_distance := 0, global_ed := 4,
          score := 100, ref_start := 0, ref_id := 0, length := 1,
          is_rc := false, is_unaligned := false, gapped := true,
          mapq := 0 } := by
    norm_num [get_alignment, extendAlignment, substrN, c1Nam1, c1Aligner,
      c1Refs, readACGT, Read.size, AlnInfo.ref_span, Nam.ref_span,
      Nam.query_span, Int.toNat_ofNat, List.replicate_succ]
    decide
  have halign2 : get_alignment c1Aligner c1Nam2 c1Refs readACGT false
      = { cigar := [(1, 'M')], edit_distance := 0, global_ed := 4,
          score := 0, ref_start := 0, ref_id := 1, length := 1,
          is_rc := false, is_unaligned := false, gapped := true,
          mapq := 0 } := by
    norm_num [get_alignment, extendAlignment, substrN, c1Nam2, c1Aligner,
      c1Refs, readACGT, Read.size, AlnInfo.ref_span, Nam.ref_span,
      Nam.query_span, Int.toNat_ofNat, List.replicate_succ]
    decide
  refine ⟨?_, by norm_num [c1Aligner], by norm_num⟩
  norm_num [align_SE, seLoop, seInit, seEmit, sortDesc, insertDesc, hrev1,
    hrev2, halign1, halign2,
    (show c1Nam1.n_hits = 5 from rfl), (show c1Nam2.n_hits = 5 from rfl),
    (show c1Aligner.params.mismatch = 4 from rfl),
    (show c1Aligner.params.gap_open = 6 from rfl)]

end Strobealign
